import Mathlib

/-!
Verification of the job-lifecycle and queuing subsystem of the rmbg
repository.  The Go source in `api/internal/queue/redis_queue.go` and
`api/internal/handlers/handlers.go` is shallowly embedded: Redis state
becomes an explicit record (a key/value association list for job records
plus the `pending_jobs` list), time is an explicit `Nat` parameter
(seconds, standing for `time.Now()`), and each Go function becomes a pure
state transformer.  Redis's `SET key val EX ttl` is modelled by consing a
`(key, job, expiry)` entry with first-match lookup (observationally the
same as overwrite), `LPUSH` by consing onto the pending list, and `RPOP`
by removing the last element.  A key is readable while `now < expiry`,
matching Redis expiry where `GET` on a key at or past its deadline
returns nil.  Go's `redis.Nil → (nil, nil)` convention is modelled by
`Option` results with `none` meaning "not found" / "empty", with no
error constructor: the model covers the reachable-store, well-serialized
executions, where the Go code returns no error.
-/

/-- Job statuses; Go declares `type JobStatus string`, so the model keeps
statuses as strings (including the empty string used as "unset" in
`AddJob`). -/
def statusPending : String := "pending"

def statusProcessing : String := "processing"

def statusCompleted : String := "completed"

def statusFailed : String := "failed"

/-- The `Job` struct of `redis_queue.go`: id, status, input/output paths,
error text and the two timestamps. -/
structure Job where
  id : String
  status : String
  inputPath : String
  outputPath : String
  error : String
  createdAt : Nat
  updatedAt : Nat
deriving DecidableEq

/-- The slice of Redis state the program uses: job records keyed by
`jobKey id` (each entry carries its expiry deadline), and the
`pending_jobs` list.  The list is kept in Redis's own left-to-right
order: `LPUSH` conses at the left, `RPOP` removes at the right. -/
structure RedisState where
  kv : List (String × Job × Nat)
  pending : List String
deriving DecidableEq

/-- The empty store. -/
def emptyStore : RedisState := { kv := [], pending := [] }

/-- `jobKey` from `redis_queue.go`. -/
def jobKey (jobID : String) : String := "job:" ++ jobID

/-- `24 * time.Hour`, in seconds. -/
def ttlSeconds : Nat := 24 * 60 * 60

/-- Redis `SET key job EX ttl` issued at time `now`: the record becomes
readable under `key` until `now + ttl`.  Overwrite is modelled by
shadowing (first-match lookup in `redisGet`). -/
def redisSet (s : RedisState) (key : String) (job : Job) (expireAt : Nat) :
    RedisState :=
  { s with kv := (key, job, expireAt) :: s.kv }

/-- Redis `GET key` at time `now`: the first entry for `key`, provided it
has not expired. -/
def redisGet (now : Nat) (s : RedisState) (key : String) : Option Job :=
  match s.kv.find? (fun e => e.1 == key) with
  | some (_, job, expireAt) => if now < expireAt then some job else none
  | none => none

/-- Redis `LPUSH pending_jobs id`. -/
def redisLPush (s : RedisState) (jobID : String) : RedisState :=
  { s with pending := jobID :: s.pending }

/-- The field adjustments `AddJob` performs on the passed job before
marshalling: both timestamps set to now, and the empty status defaulted
to pending. -/
def fixJob (now : Nat) (job : Job) : Job :=
  { job with
    createdAt := now
    updatedAt := now
    status := if job.status = "" then statusPending else job.status }

/-- `RedisQueue.AddJob`: stamp the job, `SET` it with a 24h TTL, and, when
its status is pending, `LPUSH` its ID onto the pending queue.  The
returned job reflects the in-place mutation of the caller's `*Job`. -/
def AddJob (now : Nat) (s : RedisState) (job : Job) : RedisState × Job :=
  let j := fixJob now job
  let s1 := redisSet s (jobKey j.id) j (now + ttlSeconds)
  let s2 := if j.status = statusPending then redisLPush s1 j.id else s1
  (s2, j)

/-- `RedisQueue.GetJob`: a `GET` followed by unmarshalling; `redis.Nil`
maps to `(nil, nil)`, i.e. `none`.  The state component records that the
call leaves the store untouched. -/
def GetJob (now : Nat) (s : RedisState) (jobID : String) :
    RedisState × Option Job :=
  (s, redisGet now s (jobKey jobID))

/-- `RedisQueue.UpdateJob`: refresh `updatedAt` and `SET` the record
again with a fresh 24h TTL. -/
def UpdateJob (now : Nat) (s : RedisState) (job : Job) : RedisState × Job :=
  let j := { job with updatedAt := now }
  (redisSet s (jobKey j.id) j (now + ttlSeconds), j)

/-- `RedisQueue.PopPendingJob`: `RPOP pending_jobs`; on `redis.Nil` return
`(nil, nil)` (no job, no error, queue untouched); otherwise fetch the
popped ID's record with `GetJob`.  The middle component is the popped ID
itself (the value `RPOP` returned). -/
def PopPendingJob (now : Nat) (s : RedisState) :
    RedisState × Option String × Option Job :=
  match s.pending.getLast? with
  | none => (s, none, none)
  | some jobID =>
      let s1 := { s with pending := s.pending.dropLast }
      let r := GetJob now s1 jobID
      (r.1, some jobID, r.2)

/-- The pending queue in FIFO order: element 0 is the next ID `RPOP`
returns (the earliest enqueued), and `LPUSH` appends at the end. -/
def abstractQueue (s : RedisState) : List String := s.pending.reverse

/-- `k` successive atomic `PopPendingJob` steps, collecting the IDs they
deliver; this is the linearization of `k` pops racing on the queue, since
each `RPOP` is a single atomic Redis command. -/
def popN (now : Nat) : Nat → RedisState → RedisState × List String
  | 0, s => (s, [])
  | k + 1, s =>
      let r := PopPendingJob now s
      match r.2.1 with
      | none => (r.1, [])
      | some jobID =>
          let rest := popN now k r.1
          (rest.1, jobID :: rest.2)

/-- One store operation, for reachability statements: the three mutating
entry points of `RedisQueue`, each tagged with the time it runs. -/
inductive Op where
  | add (now : Nat) (job : Job)
  | update (now : Nat) (job : Job)
  | pop (now : Nat)
deriving DecidableEq

/-- The state transition of one operation. -/
def applyOp (s : RedisState) : Op → RedisState
  | .add now job => (AddJob now s job).1
  | .update now job => (UpdateJob now s job).1
  | .pop now => (PopPendingJob now s).1

/-- Run a sequence of operations from the empty store. -/
def runOps (ops : List Op) : RedisState := ops.foldl applyOp emptyStore

/-! ## Handler layer (`handlers.go`)

HTTP details are reduced to the data each handler reads and the response
it writes.  The file system is a list of the paths that exist (`os.Stat`
succeeding is membership); `c.File` serves its path when the file exists
and otherwise produces the plain HTTP 404 of `http.ServeFile`. -/

/-- The body `GetResult` builds: `job_id` and `status` always, plus the
status-dependent optional fields of the Go `switch`. -/
structure ResultFields where
  jobId : String
  status : String
  resultUrl : Option String := none
  completedAt : Option Nat := none
  error : Option String := none
  startedAt : Option Nat := none
deriving DecidableEq

/-- Responses of `Handler.GetResult`. -/
inductive GetResultResp where
  | badRequest (msg : String)
  | jobNotFound (msg : String)
  | ok (fields : ResultFields)
deriving DecidableEq

/-- Responses of `Handler.DownloadResult`: the handler's own 400/404 JSON
answers, a successful `c.File` serve, and the bare 404 `http.ServeFile`
emits when the path does not exist. -/
inductive DownloadResp where
  | badRequest (msg : String)
  | notAvailable (msg : String)
  | served (path : String)
  | fileMissing (path : String)
deriving DecidableEq

/-- HTTP status code of a `DownloadResult` response. -/
def DownloadResp.code : DownloadResp → Nat
  | .badRequest _ => 400
  | .notAvailable _ => 404
  | .served _ => 200
  | .fileMissing _ => 404

/-- Response of `Handler.ProcessImage` on its success path. -/
inductive ProcessResp where
  | accepted (jobId : String) (status : String)
deriving DecidableEq

/-- `Handler.GetResult`: read the `id` query parameter, `GetJob` it, 404
on a missing record, and otherwise answer 200 with the status-dependent
fields: for `completed`, a download URL and completion time when the
output file exists and the error text "Result file not found" when it
does not; for `failed`, the stored error; for `processing`, the start
time. -/
def GetResult (now : Nat) (fs : List String) (s : RedisState)
    (jobID : String) : RedisState × GetResultResp :=
  if jobID = "" then (s, .badRequest "Job ID is required")
  else
    let r := GetJob now s jobID
    match r.2 with
    | none => (r.1, .jobNotFound "Job not found")
    | some job =>
        let base : ResultFields := { jobId := job.id, status := job.status }
        let fields :=
          if job.status = statusCompleted then
            if job.outputPath ∈ fs then
              { base with
                resultUrl := some ("/api/download/" ++ job.id)
                completedAt := some job.updatedAt }
            else { base with error := some "Result file not found" }
          else if job.status = statusFailed then
            { base with error := some job.error }
          else if job.status = statusProcessing then
            { base with startedAt := some job.updatedAt }
          else base
        (r.1, .ok fields)

/-- `Handler.DownloadResult`: 400 without an ID; 404 "Result not
available" when the record is missing, not completed, or has no output
path; otherwise `c.File job.OutputPath`. -/
def DownloadResult (now : Nat) (fs : List String) (s : RedisState)
    (jobID : String) : RedisState × DownloadResp :=
  if jobID = "" then (s, .badRequest "Job ID is required")
  else
    let r := GetJob now s jobID
    match r.2 with
    | none => (r.1, .notAvailable "Result not available")
    | some job =>
        if job.status ≠ statusCompleted ∨ job.outputPath = "" then
          (r.1, .notAvailable "Result not available")
        else if job.outputPath ∈ fs then (r.1, .served job.outputPath)
        else (r.1, .fileMissing job.outputPath)

/-- `Handler.ProcessImage`, success path: with the generated `jobID` and
the upload's extension as parameters, save the file under
`uploadDir/jobID+ext`, build a pending job for that path, `AddJob` it,
and answer 202 with the job ID and the job's (post-`AddJob`) status. -/
def ProcessImage (now : Nat) (s : RedisState) (jobID uploadDir ext : String) :
    RedisState × ProcessResp :=
  let uploadPath := uploadDir ++ "/" ++ (jobID ++ ext)
  let job : Job :=
    { id := jobID, status := statusPending, inputPath := uploadPath,
      outputPath := "", error := "", createdAt := 0, updatedAt := 0 }
  let r := AddJob now s job
  (r.1, .accepted jobID r.2.status)

/-- A concrete job, used to instantiate theorems at concrete inputs. -/
def mkJob (id status : String) : Job :=
  { id := id, status := status, inputPath := "uploads/" ++ id ++ ".png",
    outputPath := "", error := "", createdAt := 0, updatedAt := 0 }

/-! ## Helper lemmas -/

theorem fixJob_id (now : Nat) (job : Job) : (fixJob now job).id = job.id := rfl

theorem AddJob_pending (now : Nat) (s : RedisState) (job : Job) :
    (AddJob now s job).1.pending =
      if (fixJob now job).status = statusPending then job.id :: s.pending
      else s.pending := by
  simp only [AddJob, redisSet, redisLPush, fixJob_id]
  split <;> rfl

theorem UpdateJob_pending (now : Nat) (s : RedisState) (job : Job) :
    (UpdateJob now s job).1.pending = s.pending := rfl

theorem pop_state_empty (now : Nat) (s : RedisState) (h : s.pending = []) :
    PopPendingJob now s = (s, none, none) := by
  simp [PopPendingJob, h]

theorem pop_state_concat (now : Nat) (s : RedisState) (m : List String)
    (a : String) (h : s.pending = m ++ [a]) :
    PopPendingJob now s =
      ({ s with pending := m }, some a,
        redisGet now { s with pending := m } (jobKey a)) := by
  simp [PopPendingJob, GetJob, h]

theorem pop_pending_dropLast (now : Nat) (s : RedisState) :
    (PopPendingJob now s).1.pending = s.pending.dropLast := by
  unfold PopPendingJob
  cases h : s.pending.getLast? with
  | none =>
      have h0 := List.getLast?_eq_none_iff.mp h
      simp [h0]
  | some a => rfl

theorem pop_kv (now : Nat) (s : RedisState) :
    (PopPendingJob now s).1.kv = s.kv := by
  unfold PopPendingJob
  cases s.pending.getLast? <;> rfl

theorem pop_id_eq_head (now : Nat) (s : RedisState) :
    (PopPendingJob now s).2.1 = (abstractQueue s).head? := by
  obtain ⟨kv, p⟩ := s
  induction p using List.reverseRecOn with
  | nil => rfl
  | append_singleton m a _ =>
      rw [pop_state_concat now _ m a rfl]
      simp [abstractQueue]

theorem pop_queue_tail (now : Nat) (s : RedisState) :
    abstractQueue (PopPendingJob now s).1 = (abstractQueue s).tail := by
  obtain ⟨kv, p⟩ := s
  induction p using List.reverseRecOn with
  | nil => rfl
  | append_singleton m a _ =>
      rw [pop_state_concat now _ m a rfl]
      simp [abstractQueue]

theorem popN_take (now : Nat) :
    ∀ (k : Nat) (s : RedisState), (popN now k s).2 = (abstractQueue s).take k
  | 0, _ => by simp [popN]
  | k + 1, s => by
      have hid := pop_id_eq_head now s
      have htl := pop_queue_tail now s
      cases hq : abstractQueue s with
      | nil =>
          rw [hq] at hid
          simp only [List.head?_nil] at hid
          simp [popN, hid, hq]
      | cons a rest =>
          rw [hq] at hid htl
          simp only [List.head?_cons, List.tail_cons] at hid htl
          have hrec := popN_take now k (PopPendingJob now s).1
          simp [popN, hid, hq, hrec, htl]

theorem pending_origin (ops : List Op) :
    ∀ (s : RedisState) (id : String),
      id ∈ (List.foldl applyOp s ops).pending →
      id ∈ s.pending ∨
        ∃ now job, Op.add now job ∈ ops ∧ job.id = id ∧
          (fixJob now job).status = statusPending := by
  induction ops with
  | nil => intro s id h; exact Or.inl h
  | cons op ops ih =>
      intro s id h
      rw [List.foldl_cons] at h
      rcases ih (applyOp s op) id h with h1 | ⟨now, job, hm, hid, hst⟩
      · cases op with
        | add now job =>
            rw [show applyOp s (Op.add now job) = (AddJob now s job).1
                from rfl] at h1
            have hp := AddJob_pending now s job
            by_cases hst : (fixJob now job).status = statusPending
            · rw [hp, if_pos hst] at h1
              rcases List.mem_cons.mp h1 with rfl | h2
              · exact Or.inr ⟨now, job, List.mem_cons_self _ _, rfl, hst⟩
              · exact Or.inl h2
            · rw [hp, if_neg hst] at h1
              exact Or.inl h1
        | update now job =>
            rw [show applyOp s (Op.update now job) = (UpdateJob now s job).1
                from rfl, UpdateJob_pending] at h1
            exact Or.inl h1
        | pop now =>
            rw [show applyOp s (Op.pop now) = (PopPendingJob now s).1 from rfl,
                pop_pending_dropLast] at h1
            exact Or.inl (List.dropLast_subset _ h1)
      · exact Or.inr ⟨now, job, List.mem_cons_of_mem _ hm, hid, hst⟩

/-- Claim C2: `PopPendingJob` removes and returns the head ID of the FIFO
queue (the earliest enqueued, `AddJob` appending pending IDs at the
tail), leaves the job records untouched, and on an empty queue returns no
job and no error while leaving the whole state unchanged.  Each pop is a
single atomic `RPOP`; the `none` result embeds Go's `(nil, nil)`. -/
theorem pop_fifo_spec (now : Nat) (s : RedisState) :
    (PopPendingJob now s).2.1 = (abstractQueue s).head? ∧
    abstractQueue (PopPendingJob now s).1 = (abstractQueue s).tail ∧
    (PopPendingJob now s).1.kv = s.kv ∧
    (abstractQueue s = [] → PopPendingJob now s = (s, none, none)) ∧
    ∀ job, abstractQueue (AddJob now s job).1 =
      if (fixJob now job).status = statusPending
      then abstractQueue s ++ [job.id] else abstractQueue s := by
  refine ⟨pop_id_eq_head now s, pop_queue_tail now s, pop_kv now s, ?_, ?_⟩
  · intro h
    have h0 : s.pending = [] := by
      have := congrArg List.reverse h
      simpa [abstractQueue] using this
    exact pop_state_empty now s h0
  · intro job
    unfold abstractQueue
    rw [AddJob_pending]
    split <;> simp

/-- Witness for C2 at the empty store: the pop signals empty and changes
nothing. -/
theorem pop_fifo_spec_witness :
    PopPendingJob 0 emptyStore = (emptyStore, none, none) :=
  (pop_fifo_spec 0 emptyStore).2.2.2.1 rfl

/-- Claim C3: dequeue exclusivity.  Concurrent pops are linearized as
successive atomic `RPOP` steps; `k` such steps deliver exactly the first
`k` IDs of the FIFO queue, so with distinct enqueued IDs no ID reaches
two workers, `length` pops deliver every enqueued ID exactly once, and
when two workers race on a single pending ID the first pop receives it
and the second signals empty. -/
theorem dequeue_exclusive (now : Nat) (s : RedisState) :
    (∀ k, (popN now k s).2 = (abstractQueue s).take k) ∧
    (s.pending.Nodup →
      ((popN now s.pending.length s).2).Nodup ∧
      (popN now s.pending.length s).2 = abstractQueue s) ∧
    (∀ id, s.pending = [id] →
      (PopPendingJob now s).2.1 = some id ∧
      (PopPendingJob now (PopPendingJob now s).1).2.1 = none) := by
  refine ⟨fun k => popN_take now k s, ?_, ?_⟩
  · intro hnd
    have hlen : (abstractQueue s).take s.pending.length = abstractQueue s := by
      rw [abstractQueue, ← List.length_reverse, List.take_length]
    refine ⟨?_, ?_⟩
    · rw [popN_take now _ s, hlen]
      exact List.nodup_reverse.mpr hnd
    · rw [popN_take now _ s, hlen]
  · intro id h
    have h1 : abstractQueue s = [id] := by simp [abstractQueue, h]
    refine ⟨?_, ?_⟩
    · rw [pop_id_eq_head, h1]; rfl
    · rw [pop_id_eq_head, pop_queue_tail, h1]; rfl

/-- Witness for C3: two pops on the two-element queue `a, b` (enqueued in
that order) deliver each ID exactly once. -/
theorem dequeue_exclusive_witness :
    ((popN 0 2 { kv := [], pending := ["b", "a"] }).2).Nodup ∧
    (popN 0 2 { kv := [], pending := ["b", "a"] }).2 =
      abstractQueue { kv := [], pending := ["b", "a"] } :=
  (dequeue_exclusive 0 { kv := [], pending := ["b", "a"] }).2.1 (by decide)

/-- Claim C9: the status reader is read-only — `GetJob` and `GetResult`
return the store exactly as given, so every record, its expiry deadline
and the pending queue are unchanged. -/
theorem status_reader_readonly (now : Nat) (fs : List String)
    (s : RedisState) (jobID : String) :
    (GetJob now s jobID).1 = s ∧ (GetResult now fs s jobID).1 = s := by
  refine ⟨rfl, ?_⟩
  unfold GetResult
  split
  · rfl
  · dsimp only [GetJob]
    split <;> rfl

theorem AddJob_kv (w : Nat) (s : RedisState) (job : Job) :
    (AddJob w s job).1.kv =
      (jobKey job.id, fixJob w job, w + ttlSeconds) :: s.kv := by
  unfold AddJob redisSet redisLPush
  dsimp only
  split <;> rfl

theorem GetJob_AddJob (w t : Nat) (s : RedisState) (job : Job) :
    (GetJob t (AddJob w s job).1 job.id).2 =
      if t < w + ttlSeconds then some (fixJob w job) else none := by
  unfold GetJob redisGet
  rw [AddJob_kv]
  simp [jobKey]

theorem GetJob_UpdateJob (w t : Nat) (s : RedisState) (job : Job) :
    (GetJob t (UpdateJob w s job).1 job.id).2 =
      if t < w + ttlSeconds then some { job with updatedAt := w } else none := by
  unfold GetJob UpdateJob redisSet redisGet
  simp [jobKey]

/-- Counterexample to claim C1: a record created at time 0 and updated at
time 3600 is still retrievable at time `0 + ttlSeconds`, i.e. exactly 24
hours after creation, because `UpdateJob` restarts the TTL. -/
theorem ttl_fixed_from_creation_counterexample :
    (GetJob (0 + ttlSeconds)
      (UpdateJob 3600
        (AddJob 0 emptyStore (mkJob "a" statusPending)).1
        (mkJob "a" statusProcessing)).1 "a").2 ≠ none := by decide

/-- Claim C1 (amended): the 24-hour TTL runs from the last write, not
from creation — after `AddJob` at time `w` the record reads back exactly
while `t < w + ttlSeconds`, and after `UpdateJob` at time `w` likewise,
so every update restarts the 24-hour window at the update time while a
never-updated record expires 24 hours after creation. -/
theorem ttl_from_last_write (s : RedisState) (job : Job) (w t : Nat) :
    ((GetJob t (AddJob w s job).1 job.id).2 =
      if t < w + ttlSeconds then some (fixJob w job) else none) ∧
    ((GetJob t (UpdateJob w s job).1 job.id).2 =
      if t < w + ttlSeconds then some { job with updatedAt := w } else none) :=
  ⟨GetJob_AddJob w t s job, GetJob_UpdateJob w t s job⟩

/-- Claim C4: a successful submit stores a record under the fresh ID with
status pending, equal creation and update times and the saved upload
path, appends the ID at the tail of the pending queue, and answers with
the job ID and initial status "pending". -/
theorem submit_spec (now : Nat) (s : RedisState)
    (jobID uploadDir ext : String) :
    (GetJob now (ProcessImage now s jobID uploadDir ext).1 jobID).2 =
      some { id := jobID, status := statusPending,
             inputPath := uploadDir ++ "/" ++ (jobID ++ ext),
             outputPath := "", error := "", createdAt := now,
             updatedAt := now } ∧
    abstractQueue (ProcessImage now s jobID uploadDir ext).1 =
      abstractQueue s ++ [jobID] ∧
    (ProcessImage now s jobID uploadDir ext).2 =
      ProcessResp.accepted jobID statusPending := by
  refine ⟨?_, ?_, ?_⟩
  · simp +decide [ProcessImage, AddJob, GetJob, redisGet, redisSet,
      redisLPush, fixJob, statusPending, jobKey, ttlSeconds,
      lt_add_iff_pos_right]
  · simp +decide [ProcessImage, AddJob, redisSet, redisLPush, fixJob,
      statusPending, abstractQueue]
  · simp +decide [ProcessImage, AddJob, fixJob, statusPending]

/-- Counterexample to claim C5: after `AddJob` of a pending job followed
by `UpdateJob` setting its status to processing, the ID is still in the
pending queue while its record's status is no longer pending. -/
theorem queue_only_pending_counterexample :
    ("a" ∈ (runOps [Op.add 0 (mkJob "a" statusPending),
                    Op.update 1 (mkJob "a" statusProcessing)]).pending) ∧
    ((GetJob 1 (runOps [Op.add 0 (mkJob "a" statusPending),
                        Op.update 1 (mkJob "a" statusProcessing)]) "a").2.map
        Job.status = some statusProcessing) ∧
    statusProcessing ≠ statusPending := by decide

/-- Claim C5 (amended): in every state reachable from the empty store the
pending queue holds only job IDs, each placed there by an `AddJob` whose
job was pending when enqueued; `UpdateJob` does not remove queued IDs, so
a queued ID's record need no longer be pending. -/
theorem queue_ids_from_pending_add (ops : List Op) (id : String)
    (h : id ∈ (runOps ops).pending) :
    ∃ now job, Op.add now job ∈ ops ∧ job.id = id ∧
      (fixJob now job).status = statusPending := by
  rcases pending_origin ops emptyStore id h with h1 | h2
  · simp [emptyStore] at h1
  · exact h2

/-- Witness for the amended C5 at a one-operation history. -/
theorem queue_ids_from_pending_add_witness :
    ∃ now job, Op.add now job ∈ [Op.add 0 (mkJob "a" statusPending)] ∧
      job.id = "a" ∧ (fixJob now job).status = statusPending :=
  queue_ids_from_pending_add [Op.add 0 (mkJob "a" statusPending)] "a"
    (by decide)

/-- Claim C6: an unknown or expired ID gets the distinct 404 "Job not
found" answer, a still-pending job gets a 200 body carrying status
"pending", and the two responses can never coincide. -/
theorem query_not_found_spec (now : Nat) (fs : List String) (s : RedisState)
    (jobID : String) (hid : jobID ≠ "") :
    ((GetJob now s jobID).2 = none →
      (GetResult now fs s jobID).2 = .jobNotFound "Job not found") ∧
    (∀ job, (GetJob now s jobID).2 = some job → job.status = statusPending →
      (GetResult now fs s jobID).2 =
        .ok { jobId := job.id, status := statusPending }) ∧
    (∀ msg fields, GetResultResp.jobNotFound msg ≠ GetResultResp.ok fields) := by
  refine ⟨?_, ?_, ?_⟩
  · intro h
    have h' : redisGet now s (jobKey jobID) = none := h
    simp [GetResult, GetJob, hid, h']
  · intro job hj hp
    have hj' : redisGet now s (jobKey jobID) = some job := hj
    simp +decide [GetResult, GetJob, hid, hj', hp, statusPending,
      statusCompleted, statusFailed, statusProcessing]
  · intro msg fields h
    exact GetResultResp.noConfusion h

/-- Witness for C6: querying a never-submitted ID on the empty store. -/
theorem query_not_found_spec_witness :
    (GetResult 0 [] emptyStore "zzz").2 =
      GetResultResp.jobNotFound "Job not found" :=
  (query_not_found_spec 0 [] emptyStore "zzz" (by decide)).1 (by decide)

/-- Claim C7: for a job whose record is failed, `GetResult` answers with
the stored error text itself in the error field. -/
theorem failed_error_verbatim (now : Nat) (fs : List String) (s : RedisState)
    (jobID : String) (job : Job) (hid : jobID ≠ "")
    (hj : (GetJob now s jobID).2 = some job)
    (hf : job.status = statusFailed) :
    (GetResult now fs s jobID).2 =
      .ok { jobId := job.id, status := job.status,
            error := some job.error } := by
  have hj' : redisGet now s (jobKey jobID) = some job := hj
  simp +decide [GetResult, GetJob, hid, hj', hf, statusFailed]

/-- Witness for C7: a failed job stored with error text "decode error" is
reported with exactly that text. -/
theorem failed_error_verbatim_witness :
    (GetResult 0 []
      (AddJob 0 emptyStore
        { id := "f", status := statusFailed, inputPath := "uploads/f.png",
          outputPath := "", error := "decode error", createdAt := 0,
          updatedAt := 0 }).1 "f").2 =
      GetResultResp.ok
        { jobId := "f", status := statusFailed,
          error := some "decode error" } :=
  failed_error_verbatim 0 []
    (AddJob 0 emptyStore
      { id := "f", status := statusFailed, inputPath := "uploads/f.png",
        outputPath := "", error := "decode error", createdAt := 0,
        updatedAt := 0 }).1 "f"
    { id := "f", status := statusFailed, inputPath := "uploads/f.png",
      outputPath := "", error := "decode error", createdAt := 0,
      updatedAt := 0 }
    (by decide) (by decide) (by decide)

theorem DownloadResult_resp (now : Nat) (fs : List String) (s : RedisState)
    (jobID : String) (hid : jobID ≠ "") :
    (DownloadResult now fs s jobID).2 =
      match redisGet now s (jobKey jobID) with
      | none => .notAvailable "Result not available"
      | some job =>
          if job.status ≠ statusCompleted ∨ job.outputPath = "" then
            .notAvailable "Result not available"
          else if job.outputPath ∈ fs then .served job.outputPath
          else .fileMissing job.outputPath := by
  unfold DownloadResult
  rw [if_neg hid]
  dsimp only [GetJob]
  cases redisGet now s (jobKey jobID) with
  | none => rfl
  | some job =>
      dsimp only
      split
      · rfl
      · split <;> rfl

/-- Claim C8: `DownloadResult` serves the artifact exactly when the
record exists, its status is completed, and the artifact is present (a
non-empty output path whose file exists); in every other case the
response is an HTTP 404 — the handler's own "Result not available" body
or the file server's 404 when the recorded file has vanished. -/
theorem download_gating (now : Nat) (fs : List String) (s : RedisState)
    (jobID : String) (hid : jobID ≠ "") :
    ((∃ p, (DownloadResult now fs s jobID).2 = DownloadResp.served p) ↔
      (∃ job, (GetJob now s jobID).2 = some job ∧
        job.status = statusCompleted ∧ job.outputPath ≠ "" ∧
        job.outputPath ∈ fs)) ∧
    ((¬ ∃ job, (GetJob now s jobID).2 = some job ∧
        job.status = statusCompleted ∧ job.outputPath ≠ "" ∧
        job.outputPath ∈ fs) →
      ((DownloadResult now fs s jobID).2).code = 404) := by
  have hD := DownloadResult_resp now fs s jobID hid
  cases hj : redisGet now s (jobKey jobID) with
  | none =>
      rw [hj] at hD
      refine ⟨⟨?_, ?_⟩, ?_⟩
      · rintro ⟨p, hp⟩
        rw [hD] at hp
        cases hp
      · rintro ⟨job, hjob, -, -, -⟩
        have hjob' : redisGet now s (jobKey jobID) = some job := hjob
        rw [hj] at hjob'
        cases hjob'
      · intro _
        rw [hD]
        rfl
  | some job =>
      rw [hj] at hD
      dsimp only at hD
      have hg : (GetJob now s jobID).2 = some job := hj
      have huniq : ∀ job', (GetJob now s jobID).2 = some job' → job' = job := by
        intro job' h'
        rw [hg] at h'
        exact (Option.some.inj h').symm
      by_cases hcp : job.status ≠ statusCompleted ∨ job.outputPath = ""
      · rw [if_pos hcp] at hD
        refine ⟨⟨?_, ?_⟩, ?_⟩
        · rintro ⟨p, hp⟩
          rw [hD] at hp
          cases hp
        · rintro ⟨job', hj', hc', hp', -⟩
          rcases huniq job' hj' with rfl
          rcases hcp with h | h
          · exact absurd hc' h
          · exact absurd h hp'
        · intro _
          rw [hD]
          rfl
      · rw [if_neg hcp] at hD
        obtain ⟨hc0, hp⟩ := not_or.mp hcp
        have hc : job.status = statusCompleted := not_not.mp hc0
        by_cases hf : job.outputPath ∈ fs
        · rw [if_pos hf] at hD
          refine ⟨⟨?_, ?_⟩, ?_⟩
          · intro _
            exact ⟨job, hg, hc, hp, hf⟩
          · intro _
            exact ⟨job.outputPath, hD⟩
          · intro hno
            exact absurd ⟨job, hg, hc, hp, hf⟩ hno
        · rw [if_neg hf] at hD
          refine ⟨⟨?_, ?_⟩, ?_⟩
          · rintro ⟨p, hp'⟩
            rw [hD] at hp'
            cases hp'
          · rintro ⟨job', hj', -, -, hf'⟩
            rcases huniq job' hj' with rfl
            exact absurd hf' hf
          · intro _
            rw [hD]
            rfl

/-- Witness for C8: a completed job whose output file exists is served. -/
theorem download_gating_witness :
    ∃ p, (DownloadResult 0 ["results/c.png"]
      (AddJob 0 emptyStore
        { id := "c", status := statusCompleted,
          inputPath := "uploads/c.png", outputPath := "results/c.png",
          error := "", createdAt := 0, updatedAt := 0 }).1 "c").2 =
      DownloadResp.served p :=
  (download_gating 0 ["results/c.png"]
    (AddJob 0 emptyStore
      { id := "c", status := statusCompleted,
        inputPath := "uploads/c.png", outputPath := "results/c.png",
        error := "", createdAt := 0, updatedAt := 0 }).1 "c"
    (by decide)).1.mpr
    ⟨{ id := "c", status := statusCompleted, inputPath := "uploads/c.png",
       outputPath := "results/c.png", error := "", createdAt := 0,
       updatedAt := 0 },
     by decide, by decide, by decide, by decide⟩

/-- Claim C10: a completed job whose output file no longer exists is
still reported with status completed, but with the error text "Result
file not found" in place of a download URL and completion time. -/
theorem completed_missing_file_spec (now : Nat) (fs : List String)
    (s : RedisState) (jobID : String) (job : Job) (hid : jobID ≠ "")
    (hj : (GetJob now s jobID).2 = some job)
    (hc : job.status = statusCompleted) (hm : job.outputPath ∉ fs) :
    (GetResult now fs s jobID).2 =
      GetResultResp.ok
        { jobId := job.id, status := job.status,
          error := some "Result file not found" } := by
  have hj' : redisGet now s (jobKey jobID) = some job := hj
  simp [GetResult, GetJob, hid, hj', hc, hm]

/-- Witness for C10: a completed job queried while its output file is
absent from the file system. -/
theorem completed_missing_file_spec_witness :
    (GetResult 0 []
      (AddJob 0 emptyStore
        { id := "c", status := statusCompleted,
          inputPath := "uploads/c.png", outputPath := "results/c.png",
          error := "", createdAt := 0, updatedAt := 0 }).1 "c").2 =
      GetResultResp.ok
        { jobId := "c", status := statusCompleted,
          error := some "Result file not found" } :=
  completed_missing_file_spec 0 []
    (AddJob 0 emptyStore
      { id := "c", status := statusCompleted,
        inputPath := "uploads/c.png", outputPath := "results/c.png",
        error := "", createdAt := 0, updatedAt := 0 }).1 "c"
    { id := "c", status := statusCompleted, inputPath := "uploads/c.png",
      outputPath := "results/c.png", error := "", createdAt := 0,
      updatedAt := 0 }
    (by decide) (by decide) (by decide) (by decide)
